import Mathlib

/-!
# jsonclient: a typed HTTP/JSON request-response client

Shallow embedding of `jsonrpc.go` (package `jsonclient`).

The client is generic over a request type `Req` and a response type `Res`.
Everything the Go code obtains from other packages (`net/url`, `encoding/json`,
`strconv` through the `%q` verb, `net/textproto` through `Header.Add`, and the
retrying transport `retryablehttp.Client.Do`) is collected in the record `Env`
and every result below is stated for an arbitrary `Env`.

Go values are rendered as follows.
* `map[string]string` is an association list with unique keys (`GoMap`).
* `error` values produced by `fmt.Errorf` are their message, together with the
  message of the error wrapped by a `%w` verb, if any (`GoError`).
* a pointer `*T` is an `Option T`; dereferencing `nil` is a run-time panic,
  rendered as `Except.error`.
* the two results `(response *Res, err error)` of a call are the two fields
  `response` and `err` of `Call`; its third field `trace` logs, in order, the
  calls made to `retryablehttp.NewRequest` and to `c.conn.Do`.
-/

namespace jsonclient

/-! ## Data model -/

/-- Nanoseconds, as in `time.Duration`. -/
abbrev Duration := Int

/-- The constant `time.Second`. -/
def Second : Duration := 1000000000

/-- A Go `map[string]string`. -/
abbrev GoMap := List (String × String)

/-- Reading `m[k]` (with the presence flag). -/
def GoMap.get (m : GoMap) (k : String) : Option String :=
  match m with
  | [] => none
  | (k1, v1) :: rest => if k1 = k then some v1 else GoMap.get rest k

/-- The assignment `m[k] = v`. -/
def GoMap.set (m : GoMap) (k v : String) : GoMap :=
  match m with
  | [] => [(k, v)]
  | (k1, v1) :: rest => if k1 = k then (k1, v) :: rest else (k1, v1) :: GoMap.set rest k v

/-- The two fields of `retryablehttp.Client` that the package writes. -/
structure Conn where
  RetryMax : Int
  RetryWaitMax : Duration
  deriving DecidableEq, Repr

/-- The struct `JsonClient[Req, Res]`. -/
structure JsonClient where
  conn : Conn
  headers : GoMap
  deriving DecidableEq, Repr

/-- An `http.Header`: canonical key to the list of values added under it. -/
abbrev Header := List (String × List String)

/-- Appends `v` to the values stored under the (already canonical) key `k`. -/
def Header.append (h : Header) (k v : String) : Header :=
  match h with
  | [] => [(k, [v])]
  | (k1, vs) :: rest =>
    if k1 = k then (k1, vs ++ [v]) :: rest else (k1, vs) :: Header.append rest k v

/-- The values stored under the (already canonical) key `k`. -/
def Header.lookup (h : Header) (k : String) : List String :=
  match h with
  | [] => []
  | (k1, vs) :: rest => if k1 = k then vs else Header.lookup rest k

/-- A `retryablehttp.Request` as far as the package determines it. -/
structure Request where
  Method : String
  URL : String
  Body : Option String
  Header : Header
  deriving DecidableEq, Repr

/-- A response body: either it can be read to the end, or reading stops with an error
after some bytes. -/
inductive Body where
  | complete (data : String)
  | broken (readSoFar : String) (err : String)
  deriving DecidableEq, Repr

/-- An `http.Response` as far as the package looks at it. -/
structure Response where
  StatusCode : Int
  Body : Body
  deriving DecidableEq, Repr

/-- The function `io.ReadAll` on a response body. -/
def ReadAll : Body → Except String String
  | .complete data => .ok data
  | .broken _ err => .error err

/-- A parsed `url.URL`, kept as the text its method `String()` renders. -/
structure URL where
  rendered : String
  deriving DecidableEq, Repr

/-- The method `(*url.URL).String`. -/
def URL.String (u : URL) : String := u.rendered

/-- What one call of `c.conn.Do` did: how many times the request went out, and the final
result handed back to the caller. -/
structure Transport where
  attempts : Nat
  result : Except String Response

/-- The collaborators from other packages. -/
structure Env (Req Res : Type) where
  /-- The function `url.Parse`. -/
  urlParse : String → Except String URL
  /-- The function `json.MarshalIndent` (value, line start, indentation). -/
  jsonMarshalIndent : Req → String → String → Except String String
  /-- The function `json.Unmarshal` into a fresh `new(Res)`. -/
  jsonUnmarshal : String → Except String Res
  /-- The error, if any, with which `retryablehttp.NewRequest` rejects a method and URL. -/
  requestRejected : String → String → Option String
  /-- The method `retryablehttp.Client.Do`. -/
  Do : Conn → Request → Transport
  /-- The rendering of a string by the verb `%q`. -/
  strconvQuote : String → String
  /-- The function `textproto.CanonicalMIMEHeaderKey`, applied by `Header.Add`. -/
  canonicalMIMEHeaderKey : String → String

/-- The function `retryablehttp.NewRequest`: a fresh request with no header yet. -/
def NewRequest {Req Res : Type} (env : Env Req Res) (method url : String)
    (rawBody : Option String) : Except String Request :=
  match env.requestRejected method url with
  | some err => .error err
  | none => .ok { Method := method, URL := url, Body := rawBody, Header := [] }

/-- The method `http.Header.Add`. -/
def Header.Add {Req Res : Type} (env : Env Req Res) (h : Header) (key value : String) :
    Header :=
  Header.append h (env.canonicalMIMEHeaderKey key) value

/-- The method `http.Header.Values`. -/
def Header.Values {Req Res : Type} (env : Env Req Res) (h : Header) (key : String) :
    List String :=
  Header.lookup h (env.canonicalMIMEHeaderKey key)

/-- An `error` made by `fmt.Errorf`: its message and, for `%w`, the wrapped error. -/
structure GoError where
  msg : String
  unwrap : Option String
  deriving DecidableEq, Repr

/-- The calls to the request constructor and to the transport that a client operation
makes. -/
inductive Event where
  | newRequest (method url : String) (rawBody : Option String)
  | connDo (r : Request) (attempts : Nat)
  deriving DecidableEq, Repr

/-- The results `(response *Res, err error)` of a call and the log of what it did. -/
structure Call (Res : Type) where
  response : Option Res
  err : Option GoError
  trace : List Event

/-! ## Construction and configuration -/

/-- The function `NewJsonClient`. -/
def NewJsonClient : JsonClient :=
  let httpcon : Conn := { RetryMax := 3, RetryWaitMax := Second * 30 }
  let ret : JsonClient := { conn := httpcon, headers := [] }
  { ret with headers := GoMap.set ret.headers "Content-Type" "application/json" }

/-- The method `SetTimeout`. -/
def SetTimeout (c : JsonClient) (timeout : Duration) : JsonClient :=
  { c with conn := { c.conn with RetryWaitMax := timeout } }

/-- The method `SetRetries`. -/
def SetRetries (c : JsonClient) (retries : Int) : JsonClient :=
  { c with conn := { c.conn with RetryMax := retries } }

/-- The method `AddHeader`. -/
def AddHeader (c : JsonClient) (key val : String) : JsonClient :=
  { c with headers := GoMap.set c.headers key val }

/-! ## Calls -/

/-- The loop `for k, v := range c.headers { r.Header.Add(k, v) }`. Go leaves the order of
the iteration open; here it is the order of the list, and what a request is shown to carry
does not depend on it. -/
def addHeaders {Req Res : Type} (env : Env Req Res) (headers : GoMap) (r : Request) :
    Request :=
  headers.foldl (fun r kv => { r with Header := Header.Add env r.Header kv.1 kv.2 }) r

/-- The method `Get`. -/
def Get {Req Res : Type} (env : Env Req Res) (c : JsonClient) (requrl : String) :
    Call Res :=
  match env.urlParse requrl with
  | .error err =>
    { response := none
      err := some { msg := "invalid url " ++ requrl ++ ": " ++ err, unwrap := some err }
      trace := [] }
  | .ok u =>
    let surl := u.String
    match NewRequest env "GET" surl none with
    | .error err =>
      { response := none
        err := some { msg := "error creating http request for " ++ env.strconvQuote surl
                        ++ ": " ++ err,
                      unwrap := none }
        trace := [Event.newRequest "GET" surl none] }
    | .ok r0 =>
      let r := addHeaders env c.headers r0
      let sent := env.Do c.conn r
      let trace := [Event.newRequest "GET" surl none, Event.connDo r sent.attempts]
      match sent.result with
      | .error err =>
        { response := none
          err := some { msg := "error sending request: " ++ err, unwrap := none }
          trace := trace }
      | .ok res =>
        match ReadAll res.Body with
        | .error err =>
          { response := none
            err := some { msg := "read error: " ++ err, unwrap := none }
            trace := trace }
        | .ok body =>
          match env.jsonUnmarshal body with
          | .error err =>
            { response := none
              err := some { msg := "decode error: " ++ err ++ "; raw:" ++ body,
                            unwrap := none }
              trace := trace }
          | .ok response => { response := some response, err := none, trace := trace }

/-- The method `Post`. A `nil` request panics at `*request`. -/
def Post {Req Res : Type} (env : Env Req Res) (c : JsonClient) (requrl : String)
    (request : Option Req) : Except String (Call Res) :=
  match request with
  | none => .error "runtime error: invalid memory address or nil pointer dereference"
  | some req =>
    .ok <|
    match env.jsonMarshalIndent req "" " " with
    | .error err =>
      { response := none
        err := some { msg := "error json-encoding request : " ++ err, unwrap := none }
        trace := [] }
    | .ok req_json =>
      match NewRequest env "POST" requrl (some req_json) with
      | .error err =>
        { response := none
          err := some { msg := "error creating http request for "
                          ++ env.strconvQuote requrl ++ ": " ++ err,
                        unwrap := none }
          trace := [Event.newRequest "POST" requrl (some req_json)] }
      | .ok r0 =>
        let r := addHeaders env c.headers r0
        let sent := env.Do c.conn r
        let trace := [Event.newRequest "POST" requrl (some req_json),
                      Event.connDo r sent.attempts]
        match sent.result with
        | .error err =>
          { response := none
            err := some { msg := "error posting request: " ++ err, unwrap := none }
            trace := trace }
        | .ok res =>
          match ReadAll res.Body with
          | .error err =>
            { response := none
              err := some { msg := "read error: " ++ err, unwrap := none }
              trace := trace }
          | .ok body =>
            match env.jsonUnmarshal body with
            | .error err =>
              { response := none
                err := some { msg := "decode error: " ++ err ++ "; raw:" ++ body,
                              unwrap := none }
                trace := trace }
            | .ok response => { response := some response, err := none, trace := trace }

/-- The method `PostStream`. A `nil` request panics at `*request`. -/
def PostStream {Req Res : Type} (env : Env Req Res) (c : JsonClient) (requrl : String)
    (request : Option Req) : Except String (Call Res) :=
  match request with
  | none => .error "runtime error: invalid memory address or nil pointer dereference"
  | some req =>
    .ok <|
    match env.jsonMarshalIndent req "" " " with
    | .error err =>
      { response := none
        err := some { msg := "error json-encoding request : " ++ err, unwrap := none }
        trace := [] }
    | .ok req_json =>
      match NewRequest env "POST" requrl (some req_json) with
      | .error err =>
        { response := none
          err := some { msg := "error creating http request for "
                          ++ env.strconvQuote requrl ++ ": " ++ err,
                        unwrap := none }
          trace := [Event.newRequest "POST" requrl (some req_json)] }
      | .ok r0 =>
        let r := addHeaders env c.headers r0
        let sent := env.Do c.conn r
        let trace := [Event.newRequest "POST" requrl (some req_json),
                      Event.connDo r sent.attempts]
        match sent.result with
        | .error err =>
          { response := none
            err := some { msg := "error posting request: " ++ err, unwrap := none }
            trace := trace }
        | .ok res =>
          match ReadAll res.Body with
          | .error err =>
            { response := none
              err := some { msg := "read error: " ++ err, unwrap := none }
              trace := trace }
          | .ok body =>
            match env.jsonUnmarshal body with
            | .error err =>
              { response := none
                err := some { msg := "decode error: " ++ err ++ "; raw:" ++ body,
                              unwrap := none }
                trace := trace }
            | .ok response => { response := some response, err := none, trace := trace }

/-! ## Error kinds

The Go code has one error type; the kinds of the specification are the seven message
formats of `fmt.Errorf`, told apart by how the message begins. -/

/-- The error kinds of the specification. -/
inductive ErrorKind where
  | InvalidURL
  | RequestError
  | TransportError
  | ReadError
  | DecodeError
  | EncodeError
  deriving DecidableEq, Repr

/-- Whether the text `s` begins with the text `p`. -/
def beginsWith (p s : String) : Bool := p.data.isPrefixOf s.data

/-- The kind of an error of this package, read off the start of its message. -/
def kindOf (e : GoError) : Option ErrorKind :=
  if beginsWith "invalid url " e.msg then some ErrorKind.InvalidURL
  else if beginsWith "error creating http request for " e.msg then some ErrorKind.RequestError
  else if beginsWith "error sending request: " e.msg then some ErrorKind.TransportError
  else if beginsWith "error posting request: " e.msg then some ErrorKind.TransportError
  else if beginsWith "read error: " e.msg then some ErrorKind.ReadError
  else if beginsWith "decode error: " e.msg then some ErrorKind.DecodeError
  else if beginsWith "error json-encoding request : " e.msg then some ErrorKind.EncodeError
  else none

/-- Whether the text `s` occurs verbatim inside the text `t`. -/
def occursIn (s t : String) : Prop := s.data <:+: t.data

instance (s t : String) : Decidable (occursIn s t) := by
  unfold occursIn; infer_instance

/-! ## Sequences of configuration calls -/

/-- One call of a configuration method. -/
inductive ConfigOp where
  | setTimeout (timeout : Duration)
  | setRetries (retries : Int)
  | addHeader (key val : String)
  deriving DecidableEq, Repr

/-- Performs one configuration call on a client. -/
def ConfigOp.apply (c : JsonClient) : ConfigOp → JsonClient
  | .setTimeout timeout => SetTimeout c timeout
  | .setRetries retries => SetRetries c retries
  | .addHeader key val => AddHeader c key val

/-- Performs configuration calls from left to right. -/
def configure (c : JsonClient) (ops : List ConfigOp) : JsonClient :=
  ops.foldl ConfigOp.apply c

/-- The value of the last `AddHeader` call in `ops` whose key is `key`, if there is one. -/
def lastAdded (key : String) : List ConfigOp → Option String
  | [] => none
  | op :: rest =>
    match lastAdded key rest with
    | some v => some v
    | none =>
      match op with
      | .addHeader k v => if k = key then some v else none
      | _ => none

/-! ## The retrying transport -/

/-- Modelled from the spec: whether the transport tries again after an attempt. The transport
is the dependency `go-retryablehttp`, whose source is not among the files of this
repository; the specification says it retries "on connection failures and server-side (5xx)
responses; client-side (4xx) responses are not retried". An attempt that ends in
`Except.error` is a connection failure. -/
def shouldRetry (attempt : Except String Response) : Bool :=
  match attempt with
  | .error _ => true
  | .ok res => decide (500 ≤ res.StatusCode) && decide (res.StatusCode ≤ 599)

/-- Modelled from the spec: the retry loop of the transport, "up to the configured maximum
retry count". `server i r` is what attempt number `i` (from 0) of sending `r` meets;
`retriesLeft` counts the retries still allowed. The waits between attempts are not
modelled. -/
def attemptLoop (server : Nat → Request → Except String Response) (r : Request) :
    (retriesLeft : Nat) → (i : Nat) → Transport
  | 0, i =>
    let attempt := server i r
    if shouldRetry attempt then { attempts := i + 1, result := .error "retries exhausted" }
    else { attempts := i + 1, result := attempt }
  | retriesLeft + 1, i =>
    let attempt := server i r
    if shouldRetry attempt then attemptLoop server r retriesLeft (i + 1)
    else { attempts := i + 1, result := attempt }

/-- Modelled from the spec: the method `retryablehttp.Client.Do` against a given server, as
the specification describes the transport (see `attemptLoop`). -/
def retryingDo (server : Nat → Request → Except String Response) (conn : Conn)
    (r : Request) : Transport :=
  attemptLoop server r conn.RetryMax.toNat 0

/-! ## The test table of `jsonrpc_test.go` -/

/-- The struct `TestRequest`. -/
structure TestRequest where
  In1 : String
  In2 : String
  deriving DecidableEq, Repr

/-- The struct `TestResponse`. -/
structure TestResponse where
  Out1 : String
  Out2 : String
  deriving DecidableEq, Repr

/-- A test server that answers every attempt with the given status and body. -/
def testServer (responseStatus : Int) (responseBody : String) :
    Nat → Request → Except String Response :=
  fun _ _ => .ok { StatusCode := responseStatus, Body := Body.complete responseBody }

/-- Collaborators for the test table: the JSON functions on the two test structs for the
values and bodies of the table, a URL parser that rejects the text `:` as Go does, and the
retrying transport of the specification in front of `server`. -/
def testEnv (server : Nat → Request → Except String Response) :
    Env TestRequest TestResponse where
  urlParse := fun s =>
    if s = ":" then .error "parse \":\": missing protocol scheme" else .ok { rendered := s }
  jsonMarshalIndent := fun req pre indent =>
    .ok ("\x7b\n" ++ pre ++ indent ++ "\"in_1\": \"" ++ req.In1 ++ "\",\n"
          ++ pre ++ indent ++ "\"in_2\": \"" ++ req.In2 ++ "\"\n" ++ pre ++ "\x7d")
  jsonUnmarshal := fun body =>
    if body = "\x7b\"out_1\":\"foo\",\"out_2\":\"bar\"\x7d" then
      .ok { Out1 := "foo", Out2 := "bar" }
    else .error "invalid character in literal null"
  requestRejected := fun _ url =>
    if url = ":" then some "parse \":\": missing protocol scheme" else none
  Do := retryingDo server
  strconvQuote := fun s => "\"" ++ s ++ "\""
  canonicalMIMEHeaderKey := fun key => key

/-- The request of every row of the test table. -/
def testRequest : TestRequest := { In1 := "foo", In2 := "bar" }

/-! ## Properties of calls -/

/-- The call failed in the decode phase: no response, and an error of kind `DecodeError`
whose message contains the decoder's message and the raw body. -/
def DecodeFailure {Res : Type} (call : Call Res) (decodeErr body : String) : Prop :=
  call.response = none
  ∧ ∃ err, call.err = some err ∧ kindOf err = some ErrorKind.DecodeError
      ∧ occursIn decodeErr err.msg ∧ occursIn body err.msg

/-- The request `r` carries every entry of the header map `headers`. -/
def Carries {Req Res : Type} (env : Env Req Res) (r : Request) (headers : GoMap) : Prop :=
  ∀ k v, GoMap.get headers k = some v → v ∈ Header.Values env r.Header k

/-- Every request that the logged call handed to the transport carries every entry of
`headers`. -/
def SendsHeaders {Req Res : Type} (env : Env Req Res) (headers : GoMap)
    (trace : List Event) : Prop :=
  ∀ r n, Event.connDo r n ∈ trace → Carries env r headers

/-- How many times a request went out during the logged call. -/
def attemptsMade : List Event → Nat
  | [] => 0
  | Event.connDo _ n :: rest => n + attemptsMade rest
  | Event.newRequest _ _ _ :: rest => attemptsMade rest

/-- The call gave up in the transport phase after `n` attempts: no response, and an error
of kind `TransportError`. -/
def GaveUpAfter {Res : Type} (call : Call Res) (n : Nat) : Prop :=
  call.response = none
  ∧ (∃ err, call.err = some err ∧ kindOf err = some ErrorKind.TransportError)
  ∧ attemptsMade call.trace = n

/-! ## Lemmas -/

theorem GoMap.get_set_self (m : GoMap) (k v : String) :
    GoMap.get (GoMap.set m k v) k = some v := by
  induction m with
  | nil => simp [GoMap.set, GoMap.get]
  | cons e rest ih =>
    obtain ⟨k1, v1⟩ := e
    by_cases h : k1 = k
    · simp [GoMap.set, GoMap.get, h]
    · simp [GoMap.set, GoMap.get, h, ih]

theorem GoMap.get_set_other (m : GoMap) (k v k2 : String) (hne : k2 ≠ k) :
    GoMap.get (GoMap.set m k v) k2 = GoMap.get m k2 := by
  induction m with
  | nil =>
    have h : ¬ k = k2 := fun h => hne h.symm
    simp [GoMap.set, GoMap.get, h]
  | cons e rest ih =>
    obtain ⟨k1, v1⟩ := e
    by_cases h : k1 = k
    · subst h
      have h2 : ¬ k1 = k2 := fun h => hne h.symm
      simp [GoMap.set, GoMap.get, h2]
    · by_cases h3 : k1 = k2
      · subst h3
        simp [GoMap.set, GoMap.get, h]
      · simp [GoMap.set, GoMap.get, h, h3, ih]

theorem GoMap.mem_of_get (m : GoMap) (k v : String) (h : GoMap.get m k = some v) :
    (k, v) ∈ m := by
  induction m with
  | nil => simp [GoMap.get] at h
  | cons e rest ih =>
    obtain ⟨k1, v1⟩ := e
    by_cases h1 : k1 = k
    · simp [GoMap.get, h1] at h
      simp [h1, h]
    · simp [GoMap.get, h1] at h
      exact List.mem_cons_of_mem _ (ih h)

/-- The keys after `m[k] = v`: unchanged if `k` was present, else `k` is new. -/
theorem GoMap.keys_set (m : GoMap) (k v : String) :
    (GoMap.set m k v).map Prod.fst
      = if k ∈ m.map Prod.fst then m.map Prod.fst else m.map Prod.fst ++ [k] := by
  induction m with
  | nil => simp [GoMap.set]
  | cons e rest ih =>
    obtain ⟨k1, v1⟩ := e
    by_cases h : k1 = k
    · subst h
      simp [GoMap.set]
    · have h2 : ¬ k = k1 := fun e => h e.symm
      simp only [GoMap.set, h, if_false, List.map_cons, ih, List.mem_cons, h2, false_or]
      split <;> simp

/-- The assignment `m[k] = v` keeps keys unique. -/
theorem GoMap.set_nodup (m : GoMap) (k v : String) (hm : (m.map Prod.fst).Nodup) :
    ((GoMap.set m k v).map Prod.fst).Nodup := by
  rw [GoMap.keys_set]
  split
  · exact hm
  · rename_i hk
    exact List.Nodup.append hm (List.nodup_singleton k) (by simpa using hk)

theorem configure_conn_headers (ops : List ConfigOp) (c : JsonClient) (key : String) :
    GoMap.get (configure c ops).headers key
      = match lastAdded key ops with
        | some v => some v
        | none => GoMap.get c.headers key := by
  induction ops generalizing c with
  | nil => simp [configure, lastAdded]
  | cons op rest ih =>
    have hstep : configure c (op :: rest) = configure (ConfigOp.apply c op) rest := by
      simp [configure]
    rw [hstep, ih]
    cases hrest : lastAdded key rest with
    | some v => simp [lastAdded, hrest]
    | none =>
      cases op with
      | setTimeout t => simp [lastAdded, hrest, ConfigOp.apply, SetTimeout]
      | setRetries n => simp [lastAdded, hrest, ConfigOp.apply, SetRetries]
      | addHeader k v =>
        by_cases hk : k = key
        · subst hk
          simp [lastAdded, hrest, ConfigOp.apply, AddHeader, GoMap.get_set_self]
        · have hk2 : key ≠ k := fun h => hk h.symm
          simp [lastAdded, hrest, ConfigOp.apply, AddHeader, hk,
            GoMap.get_set_other _ _ _ _ hk2]

theorem kindOf_decode (e body : String) :
    kindOf { msg := "decode error: " ++ e ++ "; raw:" ++ body, unwrap := none }
      = some ErrorKind.DecodeError := by
  simp [kindOf, beginsWith, String.data_append]

/-! ## Construction and configuration: results -/

/-- Claim C9: `NewJsonClient` returns a client whose maximum retry count is 3, whose
retry-wait ceiling is 30 seconds, and whose header map is exactly the single entry
`Content-Type` to `application/json`. -/
theorem NewJsonClient_defaults :
    NewJsonClient.conn.RetryMax = 3
    ∧ NewJsonClient.conn.RetryWaitMax = 30 * Second
    ∧ NewJsonClient.conn.RetryWaitMax = 30000000000
    ∧ NewJsonClient.headers = [("Content-Type", "application/json")]
    ∧ ∀ k : String, GoMap.get NewJsonClient.headers k
        = if k = "Content-Type" then some "application/json" else none := by
  refine ⟨rfl, by decide, by decide, rfl, ?_⟩
  intro k
  by_cases h : k = "Content-Type"
  · subst h; rfl
  · have h2 : ¬ "Content-Type" = k := fun e => h e.symm
    simp [NewJsonClient, GoMap.set, GoMap.get, h, h2]

/-- Claim C10: for every client reached from `NewJsonClient` by a finite sequence of
`SetTimeout`, `SetRetries` and `AddHeader` calls, the header map has an entry for the key
`Content-Type`; its value is the value of the last `AddHeader` call with that key if there
is such a call, and `application/json` otherwise. -/
theorem content_type_invariant (ops : List ConfigOp) :
    GoMap.get (configure NewJsonClient ops).headers "Content-Type"
      = some ((lastAdded "Content-Type" ops).getD "application/json") := by
  rw [configure_conn_headers]
  cases lastAdded "Content-Type" ops with
  | some v => simp
  | none => simp [NewJsonClient, GoMap.set, GoMap.get]
/-! ## Calls: results -/

/-- Claim C1: for every client, URL and non-nil request value that serializes to JSON, if
the request can be built and the transport returns a response whose fully-read body
decodes into the response type as the value `v`, then `Post` returns a response equal to
`v` and a nil error. -/
theorem Post_success {Req Res : Type} (env : Env Req Res) (c : JsonClient) (requrl : String)
    (req : Req) (req_json : String) (r0 : Request) (res : Response) (body : String) (v : Res)
    (henc : env.jsonMarshalIndent req "" " " = .ok req_json)
    (hreq : NewRequest env "POST" requrl (some req_json) = .ok r0)
    (hdo : (env.Do c.conn (addHeaders env c.headers r0)).result = .ok res)
    (hread : ReadAll res.Body = .ok body)
    (hdec : env.jsonUnmarshal body = .ok v) :
    ∃ call, Post env c requrl (some req) = .ok call
      ∧ call.response = some v ∧ call.err = none := by
  simp [Post, henc, hreq, hdo, hread, hdec]

/-- The first row of the test table: the request with `in_1` = foo and `in_2` = bar, answered
by status 200 and the body with `out_1` = foo and `out_2` = bar, gives `Out1` = foo and
`Out2` = bar and no error. -/
theorem Post_success_witness :
    ∃ call, Post (testEnv (testServer 200 "\x7b\"out_1\":\"foo\",\"out_2\":\"bar\"\x7d"))
        NewJsonClient "http://127.0.0.1:8080" (some testRequest) = .ok call
      ∧ call.response = some { Out1 := "foo", Out2 := "bar" } ∧ call.err = none :=
  Post_success (testEnv (testServer 200 "\x7b\"out_1\":\"foo\",\"out_2\":\"bar\"\x7d"))
    NewJsonClient "http://127.0.0.1:8080" testRequest
    "\x7b\n \"in_1\": \"foo\",\n \"in_2\": \"bar\"\n\x7d"
    { Method := "POST", URL := "http://127.0.0.1:8080",
      Body := some "\x7b\n \"in_1\": \"foo\",\n \"in_2\": \"bar\"\n\x7d", Header := [] }
    { StatusCode := 200,
      Body := Body.complete "\x7b\"out_1\":\"foo\",\"out_2\":\"bar\"\x7d" }
    "\x7b\"out_1\":\"foo\",\"out_2\":\"bar\"\x7d"
    { Out1 := "foo", Out2 := "bar" }
    rfl rfl rfl rfl rfl

/-- Claim C4: for every client state, URL, request value and behaviour of the collaborators,
each of `Get`, `Post` and `PostStream` returns exactly one of a response and an error: the
response is nil exactly when the error is non-nil, whichever phase failed. -/
theorem response_xor_error {Req Res : Type} (env : Env Req Res) (c : JsonClient)
    (requrl : String) :
    ((Get env c requrl).response = none ↔ (Get env c requrl).err ≠ none)
    ∧ ∀ req : Req,
        (∃ call, Post env c requrl (some req) = .ok call
          ∧ (call.response = none ↔ call.err ≠ none))
        ∧ (∃ call, PostStream env c requrl (some req) = .ok call
          ∧ (call.response = none ↔ call.err ≠ none)) := by
  refine ⟨?_, fun req => ⟨⟨_, rfl, ?_⟩, ⟨_, rfl, ?_⟩⟩⟩
  · unfold Get
    cases env.urlParse requrl with
    | error e => simp
    | ok u =>
      dsimp only
      cases NewRequest env "GET" u.String none with
      | error e => simp
      | ok r0 =>
        dsimp only
        cases (env.Do c.conn (addHeaders env c.headers r0)).result with
        | error e => simp
        | ok res =>
          dsimp only
          cases ReadAll res.Body with
          | error e => simp
          | ok body =>
            dsimp only
            cases env.jsonUnmarshal body <;> simp
  · cases env.jsonMarshalIndent req "" " " with
    | error e => simp
    | ok req_json =>
      dsimp only
      cases NewRequest env "POST" requrl (some req_json) with
      | error e => simp
      | ok r0 =>
        dsimp only
        cases (env.Do c.conn (addHeaders env c.headers r0)).result with
        | error e => simp
        | ok res =>
          dsimp only
          cases ReadAll res.Body with
          | error e => simp
          | ok body =>
            dsimp only
            cases env.jsonUnmarshal body <;> simp
  · cases env.jsonMarshalIndent req "" " " with
    | error e => simp
    | ok req_json =>
      dsimp only
      cases NewRequest env "POST" requrl (some req_json) with
      | error e => simp
      | ok r0 =>
        dsimp only
        cases (env.Do c.conn (addHeaders env c.headers r0)).result with
        | error e => simp
        | ok res =>
          dsimp only
          cases ReadAll res.Body with
          | error e => simp
          | ok body =>
            dsimp only
            cases env.jsonUnmarshal body <;> simp

/-- Claim C5: `PostStream` is behaviourally identical to `Post`: for every client state, URL,
request and behaviour of the collaborators it makes the same calls with the same outgoing
request and returns the same response and the same error. -/
theorem PostStream_eq_Post {Req Res : Type} (env : Env Req Res) (c : JsonClient)
    (requrl : String) (request : Option Req) :
    PostStream env c requrl request = Post env c requrl request := rfl

/-- The error built at the decode step is a decode failure in the sense of `DecodeFailure`. -/
theorem decodeFailure_mk {Res : Type} (e body : String) (trace : List Event) :
    DecodeFailure ({ response := none
                     err := some { msg := "decode error: " ++ e ++ "; raw:" ++ body,
                                   unwrap := none }
                     trace := trace } : Call Res) e body := by
  refine ⟨rfl, _, rfl, kindOf_decode e body, ?_, ?_⟩
  · unfold occursIn
    exact ⟨"decode error: ".data, ("; raw:" ++ body).data, by simp [String.data_append]⟩
  · unfold occursIn
    exact ⟨("decode error: " ++ e ++ "; raw:").data, [], by simp [String.data_append]⟩

/-- Claim C2: for each of `Get`, `Post` and `PostStream`, whenever the transport returns a
response whose body was read in full but does not decode into the response type, the call
returns a nil response and an error of kind `DecodeError` whose message contains both the
text of the decode error and the raw body text verbatim. -/
theorem decode_failure {Req Res : Type} (env : Env Req Res) (c : JsonClient)
    (requrl : String) (res : Response) (body e : String)
    (hread : ReadAll res.Body = .ok body)
    (hdec : env.jsonUnmarshal body = .error e) :
    (∀ u r0, env.urlParse requrl = .ok u →
        NewRequest env "GET" u.String none = .ok r0 →
        (env.Do c.conn (addHeaders env c.headers r0)).result = .ok res →
        DecodeFailure (Get env c requrl) e body)
    ∧ (∀ req req_json r0, env.jsonMarshalIndent req "" " " = .ok req_json →
        NewRequest env "POST" requrl (some req_json) = .ok r0 →
        (env.Do c.conn (addHeaders env c.headers r0)).result = .ok res →
        ∃ call, Post env c requrl (some req) = .ok call ∧ DecodeFailure call e body)
    ∧ (∀ req req_json r0, env.jsonMarshalIndent req "" " " = .ok req_json →
        NewRequest env "POST" requrl (some req_json) = .ok r0 →
        (env.Do c.conn (addHeaders env c.headers r0)).result = .ok res →
        ∃ call, PostStream env c requrl (some req) = .ok call ∧ DecodeFailure call e body) := by
  refine ⟨?_, ?_, ?_⟩
  · intro u r0 hu hr hd
    simp only [Get, hu, hr, hd, hread, hdec]
    exact decodeFailure_mk e body _
  · intro req req_json r0 hm hr hd
    refine ⟨_, rfl, ?_⟩
    simp only [hm, hr, hd, hread, hdec]
    exact decodeFailure_mk e body _
  · intro req req_json r0 hm hr hd
    refine ⟨_, rfl, ?_⟩
    simp only [hm, hr, hd, hread, hdec]
    exact decodeFailure_mk e body _

/-- The third row of the test table (status 200, body `not a json`), for the three
operations. -/
theorem decode_failure_witness :
    DecodeFailure (Get (testEnv (testServer 200 "not a json")) NewJsonClient
        "http://127.0.0.1:8080")
      "invalid character in literal null" "not a json"
    ∧ (∃ call, Post (testEnv (testServer 200 "not a json")) NewJsonClient
          "http://127.0.0.1:8080" (some testRequest) = .ok call
        ∧ DecodeFailure call "invalid character in literal null" "not a json")
    ∧ (∃ call, PostStream (testEnv (testServer 200 "not a json")) NewJsonClient
          "http://127.0.0.1:8080" (some testRequest) = .ok call
        ∧ DecodeFailure call "invalid character in literal null" "not a json") :=
  have h := decode_failure (testEnv (testServer 200 "not a json")) NewJsonClient
    "http://127.0.0.1:8080" { StatusCode := 200, Body := Body.complete "not a json" }
    "not a json" "invalid character in literal null" rfl rfl
  ⟨h.1 _ _ rfl rfl rfl, h.2.1 testRequest _ _ rfl rfl rfl, h.2.2 testRequest _ _ rfl rfl rfl⟩

/-- Claim C6: for every URL string that cannot be parsed, `Get` returns a nil response and an
error of kind `InvalidURL` whose message names the offending string and which wraps the
parse error, and it neither constructs a request nor invokes the transport. -/
theorem Get_invalid_url {Req Res : Type} (env : Env Req Res) (c : JsonClient)
    (requrl e : String) (hparse : env.urlParse requrl = .error e) :
    (Get env c requrl).response = none
    ∧ (∃ err, (Get env c requrl).err = some err
        ∧ kindOf err = some ErrorKind.InvalidURL
        ∧ err.msg = "invalid url " ++ requrl ++ ": " ++ e
        ∧ occursIn requrl err.msg
        ∧ err.unwrap = some e)
    ∧ (Get env c requrl).trace = [] := by
  have hG : Get env c requrl
      = { response := none
          err := some { msg := "invalid url " ++ requrl ++ ": " ++ e, unwrap := some e }
          trace := [] } := by
    simp only [Get, hparse]
  rw [hG]
  refine ⟨rfl, ⟨_, rfl, ?_, rfl, ?_, rfl⟩, rfl⟩
  · simp [kindOf, beginsWith, String.data_append]
  · unfold occursIn
    exact ⟨"invalid url ".data, (": " ++ e).data, by simp [String.data_append]⟩

/-- The text `:` is rejected by the URL parser, so `Get` stops there. -/
theorem Get_invalid_url_witness :
    (Get (testEnv (testServer 200 "not a json")) NewJsonClient ":").response = none
    ∧ (∃ err, (Get (testEnv (testServer 200 "not a json")) NewJsonClient ":").err = some err
        ∧ kindOf err = some ErrorKind.InvalidURL
        ∧ err.msg = "invalid url " ++ ":" ++ ": " ++ "parse \":\": missing protocol scheme"
        ∧ occursIn ":" err.msg
        ∧ err.unwrap = some "parse \":\": missing protocol scheme")
    ∧ (Get (testEnv (testServer 200 "not a json")) NewJsonClient ":").trace = [] :=
  Get_invalid_url (testEnv (testServer 200 "not a json")) NewJsonClient ":"
    "parse \":\": missing protocol scheme" rfl

/-- Whatever the collaborators do, an error returned by `Post` is never of kind
`InvalidURL`: none of its five message formats begins like the one of `Get`. -/
theorem Post_err_ne_InvalidURL {Req Res : Type} (env : Env Req Res) (c : JsonClient)
    (requrl : String) (req : Req) (call : Call Res) (err : GoError)
    (hcall : Post env c requrl (some req) = .ok call) (herr : call.err = some err) :
    kindOf err ≠ some ErrorKind.InvalidURL := by
  simp only [Post, Except.ok.injEq] at hcall
  subst hcall
  revert herr
  cases env.jsonMarshalIndent req "" " " with
  | error e =>
    dsimp only
    intro h
    simp only [Option.some.injEq] at h
    subst h
    simp [kindOf, beginsWith, String.data_append]
  | ok req_json =>
    dsimp only
    cases NewRequest env "POST" requrl (some req_json) with
    | error e =>
      dsimp only
      intro h
      simp only [Option.some.injEq] at h
      subst h
      simp [kindOf, beginsWith, String.data_append]
    | ok r0 =>
      dsimp only
      cases (env.Do c.conn (addHeaders env c.headers r0)).result with
      | error e =>
        dsimp only
        intro h
        simp only [Option.some.injEq] at h
        subst h
        simp [kindOf, beginsWith, String.data_append]
      | ok res =>
        dsimp only
        cases ReadAll res.Body with
        | error e =>
          dsimp only
          intro h
          simp only [Option.some.injEq] at h
          subst h
          simp [kindOf, beginsWith, String.data_append]
        | ok body =>
          dsimp only
          cases env.jsonUnmarshal body with
          | error e =>
            dsimp only
            intro h
            simp only [Option.some.injEq] at h
            subst h
            simp [kindOf, beginsWith, String.data_append]
          | ok v =>
            dsimp only
            intro h
            simp at h

/-- Claim C7, evaluated on the unparsable URL text `:`. `Get` reports an error of kind
`InvalidURL`; `Post` and `PostStream` never parse the URL themselves, the request
constructor rejects it, and they report an error of kind `RequestError`. -/
theorem Post_unparsable_url :
    (∃ err, (Get (testEnv (testServer 200 "ok")) NewJsonClient ":").err = some err
        ∧ kindOf err = some ErrorKind.InvalidURL)
    ∧ (∃ call err, Post (testEnv (testServer 200 "ok")) NewJsonClient ":" (some testRequest)
          = .ok call
        ∧ call.err = some err
        ∧ err.msg = "error creating http request for \":\": parse \":\": missing protocol scheme"
        ∧ kindOf err = some ErrorKind.RequestError)
    ∧ (∃ call err, PostStream (testEnv (testServer 200 "ok")) NewJsonClient ":"
          (some testRequest) = .ok call
        ∧ call.err = some err
        ∧ err.msg = "error creating http request for \":\": parse \":\": missing protocol scheme"
        ∧ kindOf err = some ErrorKind.RequestError) :=
  ⟨⟨_, rfl, by decide⟩, ⟨_, _, rfl, rfl, by decide, by decide⟩,
    ⟨_, _, rfl, rfl, by decide, by decide⟩⟩

/-! ## Headers: results -/

theorem Header.mem_lookup_append_self (h : Header) (k v : String) :
    v ∈ Header.lookup (Header.append h k v) k := by
  induction h with
  | nil => simp [Header.append, Header.lookup]
  | cons e rest ih =>
    obtain ⟨k1, vs⟩ := e
    by_cases h1 : k1 = k
    · simp [Header.append, Header.lookup, h1]
    · simp [Header.append, Header.lookup, h1, ih]

theorem Header.mem_lookup_append_of_mem (h : Header) (k v k2 x : String)
    (hx : x ∈ Header.lookup h k2) : x ∈ Header.lookup (Header.append h k v) k2 := by
  induction h with
  | nil => simp [Header.lookup] at hx
  | cons e rest ih =>
    obtain ⟨k1, vs⟩ := e
    by_cases h1 : k1 = k
    · subst h1
      by_cases h2 : k1 = k2
      · subst h2
        simp [Header.lookup] at hx
        simp [Header.append, Header.lookup, hx]
      · simp [Header.lookup, h2] at hx
        simp [Header.append, Header.lookup, h2, hx]
    · by_cases h2 : k1 = k2
      · subst h2
        simp [Header.lookup] at hx
        simp [Header.append, Header.lookup, h1, hx]
      · simp [Header.lookup, h2] at hx
        simp [Header.append, Header.lookup, h1, h2, ih hx]

theorem addHeaders_keeps {Req Res : Type} (env : Env Req Res) (headers : GoMap)
    (r : Request) (k2 x : String) (hx : x ∈ Header.lookup r.Header k2) :
    x ∈ Header.lookup (addHeaders env headers r).Header k2 := by
  induction headers generalizing r with
  | nil => simpa [addHeaders] using hx
  | cons e rest ih =>
    have hstep : addHeaders env (e :: rest) r
        = addHeaders env rest { r with Header := Header.Add env r.Header e.1 e.2 } := by
      simp [addHeaders]
    rw [hstep]
    apply ih
    exact Header.mem_lookup_append_of_mem _ _ _ _ _ hx

theorem addHeaders_mem {Req Res : Type} (env : Env Req Res) (headers : GoMap)
    (r : Request) (k v : String) (hkv : (k, v) ∈ headers) :
    v ∈ Header.Values env (addHeaders env headers r).Header k := by
  induction headers generalizing r with
  | nil => simp at hkv
  | cons e rest ih =>
    have hstep : addHeaders env (e :: rest) r
        = addHeaders env rest { r with Header := Header.Add env r.Header e.1 e.2 } := by
      simp [addHeaders]
    rw [hstep]
    rcases List.mem_cons.mp hkv with heq | hrest
    · subst heq
      apply addHeaders_keeps
      exact Header.mem_lookup_append_self _ _ _
    · exact ih _ hrest

/-- After the header loop the request carries every entry of the header map. -/
theorem addHeaders_carries {Req Res : Type} (env : Env Req Res) (headers : GoMap)
    (r : Request) : Carries env (addHeaders env headers r) headers :=
  fun k v hget => addHeaders_mem env headers r k v (GoMap.mem_of_get headers k v hget)

/-- Every request that `Get` hands to the transport carries the header map of the client. -/
theorem Get_sendsHeaders {Req Res : Type} (env : Env Req Res) (c : JsonClient)
    (requrl : String) : SendsHeaders env c.headers (Get env c requrl).trace := by
  intro r n hmem
  unfold Get at hmem
  revert hmem
  cases env.urlParse requrl with
  | error e => simp
  | ok u =>
    dsimp only
    cases NewRequest env "GET" u.String none with
    | error e => simp
    | ok r0 =>
      dsimp only
      have hc := addHeaders_carries env c.headers r0
      cases (env.Do c.conn (addHeaders env c.headers r0)).result with
      | error e =>
        simp only [List.mem_cons, List.mem_singleton, Event.connDo.injEq, false_or, reduceCtorEq,
          List.not_mem_nil, or_false]
        rintro ⟨rfl, -⟩
        exact hc
      | ok res =>
        dsimp only
        cases ReadAll res.Body with
        | error e =>
          simp only [List.mem_cons, List.mem_singleton, Event.connDo.injEq, false_or,
            reduceCtorEq, List.not_mem_nil, or_false]
          rintro ⟨rfl, -⟩
          exact hc
        | ok body =>
          dsimp only
          cases env.jsonUnmarshal body with
          | error e =>
            simp only [List.mem_cons, List.mem_singleton, Event.connDo.injEq, false_or,
              reduceCtorEq, List.not_mem_nil, or_false]
            rintro ⟨rfl, -⟩
            exact hc
          | ok v =>
            simp only [List.mem_cons, List.mem_singleton, Event.connDo.injEq, false_or,
              reduceCtorEq, List.not_mem_nil, or_false]
            rintro ⟨rfl, -⟩
            exact hc
/-- Every request that `Post` hands to the transport carries the header map of the client. -/
theorem Post_sendsHeaders {Req Res : Type} (env : Env Req Res) (c : JsonClient)
    (requrl : String) (req : Req) :
    ∃ call, Post env c requrl (some req) = .ok call
      ∧ SendsHeaders env c.headers call.trace := by
  refine ⟨_, rfl, ?_⟩
  intro r n
  cases env.jsonMarshalIndent req "" " " with
  | error e => simp
  | ok req_json =>
    dsimp only
    cases NewRequest env "POST" requrl (some req_json) with
    | error e => simp
    | ok r0 =>
      dsimp only
      have hc := addHeaders_carries env c.headers r0
      cases (env.Do c.conn (addHeaders env c.headers r0)).result with
      | error e =>
        simp only [List.mem_cons, List.mem_singleton, Event.connDo.injEq, false_or, reduceCtorEq,
          List.not_mem_nil, or_false]
        rintro ⟨rfl, -⟩
        exact hc
      | ok res =>
        dsimp only
        cases ReadAll res.Body with
        | error e =>
          simp only [List.mem_cons, List.mem_singleton, Event.connDo.injEq, false_or,
            reduceCtorEq, List.not_mem_nil, or_false]
          rintro ⟨rfl, -⟩
          exact hc
        | ok body =>
          dsimp only
          cases env.jsonUnmarshal body with
          | error e =>
            simp only [List.mem_cons, List.mem_singleton, Event.connDo.injEq, false_or,
              reduceCtorEq, List.not_mem_nil, or_false]
            rintro ⟨rfl, -⟩
            exact hc
          | ok v =>
            simp only [List.mem_cons, List.mem_singleton, Event.connDo.injEq, false_or,
              reduceCtorEq, List.not_mem_nil, or_false]
            rintro ⟨rfl, -⟩
            exact hc

/-- Every request that `PostStream` hands to the transport carries the header map of the
client. -/
theorem PostStream_sendsHeaders {Req Res : Type} (env : Env Req Res) (c : JsonClient)
    (requrl : String) (req : Req) :
    ∃ call, PostStream env c requrl (some req) = .ok call
      ∧ SendsHeaders env c.headers call.trace :=
  Post_sendsHeaders env c requrl req

/-- Claim C8: `AddHeader` is an upsert whose effect is visible on later calls. After
`AddHeader(k, v)` the header map maps `k` to `v` whatever it held for `k` before, every other
key and the retry settings are unchanged, and the request that any later `Get`, `Post` or
`PostStream` hands to the transport carries each entry of the header map as it stands at the
time of the call, so in particular `v` under `k`. -/
theorem AddHeader_upsert {Req Res : Type} (env : Env Req Res) (c : JsonClient)
    (k v : String) :
    GoMap.get (AddHeader c k v).headers k = some v
    ∧ (∀ k2, k2 ≠ k → GoMap.get (AddHeader c k v).headers k2 = GoMap.get c.headers k2)
    ∧ (AddHeader c k v).conn = c.conn
    ∧ (∀ (c1 : JsonClient) (requrl : String),
        SendsHeaders env c1.headers (Get env c1 requrl).trace
        ∧ ∀ req : Req,
            (∃ call, Post env c1 requrl (some req) = .ok call
              ∧ SendsHeaders env c1.headers call.trace)
            ∧ (∃ call, PostStream env c1 requrl (some req) = .ok call
              ∧ SendsHeaders env c1.headers call.trace))
    ∧ (∀ (requrl : String) (r : Request) (n : Nat),
        (Event.connDo r n ∈ (Get env (AddHeader c k v) requrl).trace →
          v ∈ Header.Values env r.Header k)
        ∧ ∀ req : Req,
            (∃ call, Post env (AddHeader c k v) requrl (some req) = .ok call
              ∧ (Event.connDo r n ∈ call.trace → v ∈ Header.Values env r.Header k))
            ∧ (∃ call, PostStream env (AddHeader c k v) requrl (some req) = .ok call
              ∧ (Event.connDo r n ∈ call.trace → v ∈ Header.Values env r.Header k))) := by
  have hself : GoMap.get (AddHeader c k v).headers k = some v := GoMap.get_set_self _ _ _
  refine ⟨hself, fun k2 hne => GoMap.get_set_other _ _ _ _ hne, rfl, ?_, ?_⟩
  · intro c1 requrl
    exact ⟨Get_sendsHeaders env c1 requrl,
      fun req => ⟨Post_sendsHeaders env c1 requrl req, PostStream_sendsHeaders env c1 requrl req⟩⟩
  · intro requrl r n
    refine ⟨fun hmem => Get_sendsHeaders env _ requrl r n hmem k v hself, fun req => ⟨?_, ?_⟩⟩
    · obtain ⟨call, hcall, hs⟩ := Post_sendsHeaders env (AddHeader c k v) requrl req
      exact ⟨call, hcall, fun hmem => hs r n hmem k v hself⟩
    · obtain ⟨call, hcall, hs⟩ := PostStream_sendsHeaders env (AddHeader c k v) requrl req
      exact ⟨call, hcall, fun hmem => hs r n hmem k v hself⟩

/-- Overwriting `Content-Type`, adding `X-Token`, and the request that `Get` then sends. -/
theorem AddHeader_upsert_witness :
    GoMap.get (AddHeader NewJsonClient "Content-Type" "text/plain").headers "Content-Type"
      = some "text/plain"
    ∧ GoMap.get (AddHeader NewJsonClient "X-Token" "abc").headers "Content-Type"
      = GoMap.get NewJsonClient.headers "Content-Type"
    ∧ (Event.connDo
          { Method := "GET", URL := "http://127.0.0.1:8080", Body := none,
            Header := [("Content-Type", ["application/json"]), ("X-Token", ["abc"])] } 1
        ∈ (Get (testEnv (testServer 200 "ok")) (AddHeader NewJsonClient "X-Token" "abc")
            "http://127.0.0.1:8080").trace)
    ∧ "abc" ∈ Header.Values (testEnv (testServer 200 "ok"))
        [("Content-Type", ["application/json"]), ("X-Token", ["abc"])] "X-Token" :=
  ⟨(AddHeader_upsert (testEnv (testServer 200 "ok")) NewJsonClient
      "Content-Type" "text/plain").1,
    (AddHeader_upsert (testEnv (testServer 200 "ok")) NewJsonClient "X-Token" "abc").2.1
      "Content-Type" (by decide),
    by decide,
    ((AddHeader_upsert (testEnv (testServer 200 "ok")) NewJsonClient "X-Token" "abc").2.2.2.2
      "http://127.0.0.1:8080"
      { Method := "GET", URL := "http://127.0.0.1:8080", Body := none,
        Header := [("Content-Type", ["application/json"]), ("X-Token", ["abc"])] } 1).1
      (by decide)⟩

/-! ## Retries: results -/

/-- Against a server on which every attempt is to be retried, the loop uses up all the
retries it is allowed and then gives up. -/
theorem attemptLoop_always_retry (server : Nat → Request → Except String Response)
    (r : Request) (hserver : ∀ i, shouldRetry (server i r) = true)
    (retriesLeft i : Nat) :
    attemptLoop server r retriesLeft i
      = { attempts := i + retriesLeft + 1, result := .error "retries exhausted" } := by
  induction retriesLeft generalizing i with
  | zero => simp [attemptLoop, hserver]
  | succ m ih =>
    simp only [attemptLoop, hserver, if_true]
    rw [ih]
    congr 1
    omega

/-- Against such a server the transport makes one attempt more than the retry maximum. -/
theorem retryingDo_always_retry (server : Nat → Request → Except String Response)
    (conn : Conn) (r : Request) (hserver : ∀ i, shouldRetry (server i r) = true) :
    retryingDo server conn r
      = { attempts := conn.RetryMax.toNat + 1, result := .error "retries exhausted" } := by
  unfold retryingDo
  rw [attemptLoop_always_retry server r hserver]
  simp

/-- Claim C3: for every retry count `n` set by `SetRetries(n)`, a call that reaches the
transport, against a server that is unreachable or answers every attempt with a 5xx
response, makes exactly `n + 1` attempts and then returns a nil response and an error of
kind `TransportError`. The transport is the one the specification describes
(`retryingDo`). -/
theorem retries_exhausted {Req Res : Type} (env : Env Req Res)
    (server : Nat → Request → Except String Response) (c : JsonClient) (n : Nat)
    (requrl : String)
    (hserver : ∀ i r, shouldRetry (server i r) = true)
    (hDo : env.Do = retryingDo server) :
    (∀ u r0, env.urlParse requrl = .ok u →
        NewRequest env "GET" u.String none = .ok r0 →
        GaveUpAfter (Get env (SetRetries c (n : Int)) requrl) (n + 1))
    ∧ (∀ req req_json r0, env.jsonMarshalIndent req "" " " = .ok req_json →
        NewRequest env "POST" requrl (some req_json) = .ok r0 →
        ∃ call, Post env (SetRetries c (n : Int)) requrl (some req) = .ok call
          ∧ GaveUpAfter call (n + 1))
    ∧ (∀ req req_json r0, env.jsonMarshalIndent req "" " " = .ok req_json →
        NewRequest env "POST" requrl (some req_json) = .ok r0 →
        ∃ call, PostStream env (SetRetries c (n : Int)) requrl (some req) = .ok call
          ∧ GaveUpAfter call (n + 1)) := by
  have hd : ∀ r, env.Do (SetRetries c (n : Int)).conn r
      = { attempts := n + 1, result := .error "retries exhausted" } := by
    intro r
    rw [hDo, retryingDo_always_retry server _ r (fun i => hserver i r)]
    simp [SetRetries]
  have hkind1 : kindOf { msg := "error sending request: " ++ "retries exhausted", unwrap := none }
      = some ErrorKind.TransportError := by decide
  have hkind2 : kindOf { msg := "error posting request: " ++ "retries exhausted", unwrap := none }
      = some ErrorKind.TransportError := by decide
  refine ⟨?_, ?_, ?_⟩
  · intro u r0 hu hr
    simp only [Get, hu, hr, hd]
    exact ⟨rfl, ⟨_, rfl, hkind1⟩, by simp [attemptsMade]⟩
  · intro req req_json r0 hm hr
    refine ⟨_, rfl, ?_⟩
    simp only [hm, hr, hd]
    exact ⟨rfl, ⟨_, rfl, hkind2⟩, by simp [attemptsMade]⟩
  · intro req req_json r0 hm hr
    refine ⟨_, rfl, ?_⟩
    simp only [hm, hr, hd]
    exact ⟨rfl, ⟨_, rfl, hkind2⟩, by simp [attemptsMade]⟩

/-- The second row of the test table (default client, status 500 on every attempt): four
attempts, then an error. With `SetRetries(0)`: exactly one attempt, for a server answering
500 as for an unreachable one. -/
theorem retries_exhausted_witness :
    (∃ call, Post (testEnv (testServer 500 "Internal Server Error")) NewJsonClient
          "http://127.0.0.1:8080" (some testRequest) = .ok call
        ∧ GaveUpAfter call 4)
    ∧ (∃ call, Post (testEnv (testServer 500 "Internal Server Error"))
          (SetRetries NewJsonClient 0) "http://127.0.0.1:8080" (some testRequest) = .ok call
        ∧ GaveUpAfter call 1)
    ∧ (∃ call, Post (testEnv (fun _ _ => .error "connection refused"))
          (SetRetries NewJsonClient 0) "http://127.0.0.1:8080" (some testRequest) = .ok call
        ∧ GaveUpAfter call 1) :=
  ⟨(retries_exhausted (testEnv (testServer 500 "Internal Server Error"))
      (testServer 500 "Internal Server Error") NewJsonClient 3 "http://127.0.0.1:8080"
      (fun _ _ => rfl) rfl).2.1 testRequest _ _ rfl rfl,
   (retries_exhausted (testEnv (testServer 500 "Internal Server Error"))
      (testServer 500 "Internal Server Error") NewJsonClient 0 "http://127.0.0.1:8080"
      (fun _ _ => rfl) rfl).2.1 testRequest _ _ rfl rfl,
   (retries_exhausted (testEnv (fun _ _ => .error "connection refused"))
      (fun _ _ => .error "connection refused") NewJsonClient 0 "http://127.0.0.1:8080"
      (fun _ _ => rfl) rfl).2.1 testRequest _ _ rfl rfl⟩

end jsonclient
